import Mathlib

/-!
Verification of the encrypted-chat relay backend (Flask + SQLite).

The definitions below are a shallow embedding of the Python source:
`backend/database.py` (SQLite store layer) and `backend/routes/auth.py`,
`backend/routes/chat.py` (HTTP handlers).  Tables become lists of records,
SQL timestamps become `Nat`, and the SQLite queries become the
corresponding list operations (filter / sort / group).  Handlers return
their HTTP status code together with the updated store.  A store-layer
exception (the `except` branches in the Python) is modelled by an explicit
`storeFails : Bool` parameter on the operations whose Python bodies carry
a `try/except`.
-/

/-- A row of the `users` table (`init_db` in `database.py`). -/
structure User where
  username : String
  password_hash : String
  public_key : String
deriving DecidableEq

/-- A row of the `messages` table.  `encrypted_session_key` is nullable,
`timestamp` is the server-assigned insertion timestamp. -/
structure Message where
  sender_username : String
  receiver_username : String
  encrypted_content : String
  iv : String
  encrypted_session_key : Option String
  timestamp : Nat
deriving DecidableEq

/-- A row of the `sessions` table. -/
structure Session where
  username : String
  session_token : String
  expires_at : Nat
deriving DecidableEq

/-- Werkzeug `generate_password_hash`, modelled as an injective tagging
function (the claims only depend on hash/verify round-tripping). -/
def hashPassword (password : String) : String :=
  "pbkdf2:" ++ password

/-- Werkzeug `check_password_hash`. -/
def checkPasswordHash (hash password : String) : Bool :=
  hash == hashPassword password

/-- The character set stripped by Python `str.strip()` (the code points on
which `str.isspace` is true in CPython): U+0009–U+000D, U+001C–U+001F,
U+0020, U+0085, U+00A0, U+1680, U+2000–U+200A, U+2028, U+2029, U+202F,
U+205F and U+3000. -/
def pyIsSpace (c : Char) : Bool :=
  let n := c.toNat
  (0x09 ≤ n && n ≤ 0x0D) || (0x1C ≤ n && n ≤ 0x20) ||
  n == 0x85 || n == 0xA0 || n == 0x1680 || (0x2000 ≤ n && n ≤ 0x200A) ||
  n == 0x2028 || n == 0x2029 || n == 0x202F || n == 0x205F || n == 0x3000

/-- Python `str.strip()` (used on usernames and search queries):
drop the characters of `pyIsSpace` from both ends. -/
def pyStrip (s : String) : String :=
  ⟨((s.data.dropWhile pyIsSpace).reverse.dropWhile pyIsSpace).reverse⟩

/-- `Database.create_user`: `INSERT INTO users ...`; the `UNIQUE` constraint
on `username` makes the insert raise `IntegrityError` when a row with the
same (case-sensitively equal) username exists, in which case the function
returns `False` and the table is unchanged. -/
def create_user (username password_hash public_key : String) (users : List User) :
    Bool × List User :=
  if users.any (fun u => u.username == username) then (false, users)
  else (true, users ++ [⟨username, password_hash, public_key⟩])

/-- `Database.get_user`: `SELECT * FROM users WHERE username = ?`, first row. -/
def get_user (username : String) (users : List User) : Option User :=
  users.find? (fun u => u.username == username)

/-- `Database.store_message`: `INSERT INTO messages ...` with a
server-assigned timestamp; returns `False` (store unchanged) when the
insert raises. -/
def store_message (sender receiver encrypted_content iv : String)
    (encrypted_session_key : Option String) (now : Nat)
    (msgs : List Message) (storeFails : Bool) : Bool × List Message :=
  if storeFails then (false, msgs)
  else (true, msgs ++ [⟨sender, receiver, encrypted_content, iv, encrypted_session_key, now⟩])

/-- The `WHERE sender_username = ? OR receiver_username = ?` predicate. -/
def involvesUser (u : String) (m : Message) : Bool :=
  m.sender_username == u || m.receiver_username == u

/-- The `(sender_username = ? AND receiver_username = ?) OR
(sender_username = ? AND receiver_username = ?)` predicate of
`get_messages`. -/
def betweenUsers (u v : String) (m : Message) : Bool :=
  (m.sender_username == u && m.receiver_username == v) ||
  (m.sender_username == v && m.receiver_username == u)

/-- `ORDER BY timestamp ASC` comparison on message rows. -/
def msgLe (a b : Message) : Prop :=
  a.timestamp ≤ b.timestamp

instance : DecidableRel msgLe := fun a b => Nat.decLe a.timestamp b.timestamp

instance : IsTotal Message msgLe := ⟨fun a b => Nat.le_total a.timestamp b.timestamp⟩

instance : IsTrans Message msgLe := ⟨fun _ _ _ h h' => Nat.le_trans h h'⟩

/-- `Database.get_messages`: with a conversation partner, the bidirectional
exchange; otherwise all rows involving the user; both `ORDER BY timestamp
ASC`.  The Python guard is `if other_username:`, so `None` and the empty
string both select the unfiltered branch. -/
def get_messages (username : String) (other_username : Option String)
    (msgs : List Message) : List Message :=
  match other_username with
  | some v =>
      if v = "" then List.insertionSort msgLe (msgs.filter (involvesUser username))
      else List.insertionSort msgLe (msgs.filter (betweenUsers username v))
  | none => List.insertionSort msgLe (msgs.filter (involvesUser username))

/-- The `CASE WHEN sender_username = ? THEN receiver_username ELSE
sender_username END` expression of `get_conversations`. -/
def contactOf (u : String) (m : Message) : String :=
  if m.sender_username = u then m.receiver_username else m.sender_username

/-- `MAX(timestamp)` over a group of message rows. -/
def maxTimestamp (l : List Message) : Nat :=
  l.foldr (fun m acc => max m.timestamp acc) 0

/-- `ORDER BY last_message_time DESC` comparison on `(contact, time)` pairs. -/
def pairGe (a b : String × Nat) : Prop :=
  b.2 ≤ a.2

instance : DecidableRel pairGe := fun a b => Nat.decLe b.2 a.2

instance : IsTotal (String × Nat) pairGe := ⟨fun a b => Nat.le_total b.2 a.2⟩

instance : IsTrans (String × Nat) pairGe := ⟨fun _ _ _ h h' => Nat.le_trans h' h⟩

/-- `Database.get_conversations`: restrict to rows involving the user,
derive the contact of each row with the `CASE` expression, group by that
contact keeping `MAX(timestamp)`, and order by that time descending. -/
def get_conversations (username : String) (msgs : List Message) :
    List (String × Nat) :=
  let involved := msgs.filter (involvesUser username)
  let contacts := (involved.map (contactOf username)).dedup
  List.insertionSort pairGe
    (contacts.map (fun c =>
      (c, maxTimestamp (involved.filter (fun m => contactOf username m == c)))))

/-- `Database.create_session`: `INSERT INTO sessions ...`. -/
def create_session (username session_token : String) (expires_at : Nat)
    (sessions : List Session) : List Session :=
  sessions ++ [⟨username, session_token, expires_at⟩]

/-- `Database.get_session`: `SELECT * FROM sessions WHERE session_token = ?
AND expires_at > CURRENT_TIMESTAMP`, first row. -/
def get_session (session_token : String) (sessions : List Session) (now : Nat) :
    Option Session :=
  sessions.find? (fun s => s.session_token == session_token && decide (now < s.expires_at))

/-- `Database.delete_session`: `DELETE FROM sessions WHERE session_token = ?`.
Deleting zero rows raises nothing, so the function returns `True` whether or
not a matching row existed; only a store exception yields `False`. -/
def delete_session (session_token : String) (sessions : List Session)
    (storeFails : Bool) : Bool × List Session :=
  if storeFails then (false, sessions)
  else (true, sessions.filter (fun s => !(s.session_token == session_token)))

/-- SQLite ASCII case folding used by `LIKE`. -/
def lowerAscii (c : Char) : Char :=
  if 'A' ≤ c && c ≤ 'Z' then Char.ofNat (c.toNat + 32) else c

/-- SQLite `LIKE` pattern matching (default, no `ESCAPE` clause):
`%` matches any sequence, `_` matches any single character, any other
pattern character matches ASCII-case-insensitively. -/
def like : List Char → List Char → Bool
  | [], s => s.isEmpty
  | c :: p, s =>
      if c = '%' then s.tails.any (fun t => like p t)
      else
        match s with
        | [] => false
        | d :: s' => (if c = '_' then true else lowerAscii c == lowerAscii d) && like p s'

/-- The pattern `'%' + query + '%'` built by `search_users`, with the query
interpolated unescaped. -/
def likePattern (query : String) : List Char :=
  '%' :: (query.data ++ ['%'])

/-- `Database.search_users`: `SELECT username FROM users WHERE username LIKE
'%query%' AND username != current_user ORDER BY username LIMIT 10`; the
`except` branch converts a store failure into an empty result list. -/
def search_users (query current_user : String) (users : List User)
    (storeFails : Bool) : List String :=
  if storeFails then []
  else
    (List.insertionSort (· ≤ ·)
      ((users.map User.username).filter
        (fun s => like (likePattern query) s.data && !(s == current_user)))).take 10

/-- `Database.get_all_users`: every username except the current user,
`ORDER BY username`; the `except` branch converts a store failure into an
empty result list. -/
def get_all_users (current_user : String) (users : List User)
    (storeFails : Bool) : List String :=
  if storeFails then []
  else
    List.insertionSort (· ≤ ·)
      ((users.map User.username).filter (fun s => !(s == current_user)))

/-- The character-set check of `register`:
`username.replace('_','').replace('-','').isalnum()`.  Python's `isalnum`
is `False` on the empty string, so a username consisting solely of
hyphens/underscores fails the check.  Python's per-character `isalnum` is
a Unicode-table predicate; the model pins it down on the ASCII range
(where it coincides with `Char.isAlphanum`, true exactly on the ASCII
letters and digits) and the validation theorems below quantify only over
inputs whose outcome is decided by ASCII characters, on which model and
source agree; the model's value on non-ASCII characters carries no
weight in any theorem. -/
def usernameCoreAlnum (username : String) : Bool :=
  let core := username.data.filter (fun c => !(c == '_') && !(c == '-'))
  !core.isEmpty && core.all Char.isAlphanum

/-- The full username validation of the `register` handler on the stripped
username: length between 3 and 50, and the character-set check. -/
def username_valid (username : String) : Bool :=
  !(username.length < 3 || 50 < username.length) && usernameCoreAlnum username

/-- `POST /auth/register` (`auth.py`): missing/empty fields give 400, then
the stripped username is validated (length, characters), the password
length is checked, and `create_user` decides 201 versus 409.  Returns the
status code and the resulting `users` table. -/
def register (username password public_key : String) (users : List User) :
    Nat × List User :=
  if username == "" || password == "" || public_key == "" then (400, users)
  else
    let uname := pyStrip username
    if uname.length < 3 || 50 < uname.length then (400, users)
    else if !usernameCoreAlnum uname then (400, users)
    else if password.length < 6 then (400, users)
    else
      match create_user uname (hashPassword password) public_key users with
      | (true, users') => (201, users')
      | (false, _) => (409, users)

/-- Session lifetime set by `login`: `timedelta(hours=24)`, in seconds. -/
def sessionLifetime : Nat := 24 * 60 * 60

/-- `POST /auth/login`: look the user up, check the password, and create a
session expiring `sessionLifetime` after `now`.  The fresh random token is
a parameter.  Returns the status code and the resulting `sessions` table. -/
def login (username password : String) (users : List User)
    (sessions : List Session) (token : String) (now : Nat) :
    Nat × List Session :=
  match get_user (pyStrip username) users with
  | none => (401, sessions)
  | some user =>
      if checkPasswordHash user.password_hash password then
        (200, create_session (pyStrip username) token (now + sessionLifetime) sessions)
      else (401, sessions)

/-- `POST /auth/logout` (Bearer header already parsed): `delete_session`
returns `True` unless the store fails, and the handler maps `True` to 200
and `False` to 401 "Invalid session". -/
def logout (session_token : String) (sessions : List Session)
    (storeFails : Bool) : Nat × List Session :=
  match delete_session session_token sessions storeFails with
  | (true, sessions') => (200, sessions')
  | (false, _) => (401, sessions)

/-- The `require_auth` guard (Bearer header already parsed): resolve the
token to the owning username through `get_session`. -/
def require_auth (session_token : String) (sessions : List Session)
    (now : Nat) : Option String :=
  (get_session session_token sessions now).map Session.username

/-- `GET /auth/verify`: 200 with the owning username when `get_session`
finds a live session, otherwise 401 with no username — the same response
whether the token is expired or never existed. -/
def verify_session (session_token : String) (sessions : List Session)
    (now : Nat) : Nat × Option String :=
  match get_session session_token sessions now with
  | some s => (200, some s.username)
  | none => (401, none)

/-- `POST /chat/send` (authentication already passed, `sender` is the
resolved current user): missing/empty required fields give 400, an unknown
receiver gives 404 with nothing written, a store failure gives 500, and
otherwise the row is inserted and 201 returned. -/
def send_message (sender receiver_username encrypted_content iv : String)
    (encrypted_session_key : Option String) (users : List User)
    (msgs : List Message) (now : Nat) (storeFails : Bool) :
    Nat × List Message :=
  if receiver_username == "" || encrypted_content == "" || iv == "" then (400, msgs)
  else
    match get_user receiver_username users with
    | none => (404, msgs)
    | some _ =>
        match store_message sender receiver_username encrypted_content iv
            encrypted_session_key now msgs storeFails with
        | (true, msgs') => (201, msgs')
        | (false, _) => (500, msgs)

/-- `GET /chat/search-users`: strip the query, reject queries shorter than
2 characters with 400 before touching the store, otherwise answer 200 with
`search_users` (sliced to 10 again by the handler). -/
def search_users_route (q current_user : String) (users : List User)
    (storeFails : Bool) : Nat × List String :=
  let query := pyStrip q
  if query.length < 2 then (400, [])
  else (200, (search_users query current_user users storeFails).take 10)

/-- `GET /chat/users`: always 200 with `get_all_users`. -/
def get_users_route (current_user : String) (users : List User)
    (storeFails : Bool) : Nat × List String :=
  (200, get_all_users current_user users storeFails)

/-- Case-insensitive (ASCII) substring containment — the spec's wording of
what `search` matches. -/
def containsCI (query s : String) : Bool :=
  decide ((query.data.map lowerAscii) <:+: (s.data.map lowerAscii))

/-- Spec-side description of user search, following the spec's words:
the registered usernames containing the query as a case-insensitive
substring, excluding the requesting user, alphabetically ordered, capped
at 10 results.  Compared against `search_users` (the source's `LIKE`
query) in the C6 refinement theorem. -/
def search_users_spec (query current_user : String) (users : List User) :
    List String :=
  (List.insertionSort (· ≤ ·)
    ((users.map User.username).filter
      (fun s => containsCI query s && !(s == current_user)))).take 10

/-- C3 counterexample: the token "ghost" matches no session row (the store
is empty), yet `logout` answers 200, not the 401 the claim asserts. -/
theorem logout_unknown_token_counterexample :
    (∀ s ∈ ([] : List Session), s.session_token ≠ "ghost") ∧
    logout "ghost" [] false = (200, []) ∧
    (logout "ghost" [] false).1 ≠ 401 := by
  refine ⟨?_, rfl, by decide⟩
  intro s hs
  cases hs

/-- C3 (amended): revoking with a token that matches no session row is a
no-op success — absent a store failure, `logout` answers 200 for every
token and simply deletes the matching rows (none, for an unknown token);
the 401 "Invalid session" branch is reached only when the store's delete
operation itself fails. -/
theorem logout_spec (session_token : String) (sessions : List Session) :
    logout session_token sessions false
      = (200, sessions.filter (fun s => !(s.session_token == session_token))) ∧
    logout session_token sessions true = (401, sessions) := by
  exact ⟨rfl, rfl⟩

/-- C4: a send request whose receiver matches no user row leaves the
message table unchanged, and — when the required fields are present —
returns 404 (an empty required field is answered 400 earlier, also
without writing). -/
theorem send_unknown_receiver (sender receiver content iv : String)
    (sk : Option String) (users : List User) (msgs : List Message)
    (now : Nat) (storeFails : Bool)
    (h : ∀ u ∈ users, u.username ≠ receiver) :
    (send_message sender receiver content iv sk users msgs now storeFails).2 = msgs ∧
    (receiver ≠ "" → content ≠ "" → iv ≠ "" →
      (send_message sender receiver content iv sk users msgs now storeFails).1 = 404) := by
  have hget : get_user receiver users = none := by
    rw [get_user, List.find?_eq_none]
    intro u hu
    simpa using h u hu
  constructor
  · by_cases h400 : (receiver == "" || content == "" || iv == "") = true
    · simp [send_message, h400]
    · simp [send_message, h400, hget]
  · intro hr hc hiv
    simp [send_message, hget, hr, hc, hiv]

/-- C4 witness at a concrete input: empty user table, receiver "bob". -/
theorem send_unknown_receiver_witness :
    (send_message "alice" "bob" "ct" "iv1" none [] [] 5 false).2 = [] ∧
    (send_message "alice" "bob" "ct" "iv1" none [] [] 5 false).1 = 404 := by
  have h := send_unknown_receiver "alice" "bob" "ct" "iv1" none [] [] 5 false
    (by intro u hu; cases hu)
  exact ⟨h.1, h.2 (by decide) (by decide) (by decide)⟩

/-- C8 counterexample: a store failure during user search (and during user
listing) is answered with HTTP 200 and an empty result list — a store
failure converted into a successful empty list, which the claim rules out. -/
theorem store_failure_counterexample :
    search_users_route "bo" "alice" [⟨"bob", "h", "k"⟩] true = (200, []) ∧
    get_users_route "alice" [⟨"bob", "h", "k"⟩] true = (200, []) := by
  exact ⟨rfl, rfl⟩

/-- C8 (amended): a store failure during message storage surfaces
immediately as a 500 error with the table unchanged (no retry), but user
search and user listing catch the store failure and answer 200 with an
empty list. -/
theorem store_failure_spec :
    (∀ q cu users, 2 ≤ (pyStrip q).length →
      search_users_route q cu users true = (200, [])) ∧
    (∀ cu users, get_users_route cu users true = (200, [])) ∧
    (∀ sender receiver content iv sk users msgs now,
      receiver ≠ "" → content ≠ "" → iv ≠ "" →
      (get_user receiver users).isSome = true →
      send_message sender receiver content iv sk users msgs now true = (500, msgs)) := by
  refine ⟨fun q cu users hq => ?_, fun cu users => rfl,
    fun sender receiver content iv sk users msgs now hr hc hiv hrecv => ?_⟩
  · simp [search_users_route, search_users, Nat.not_lt.mpr hq]
  · obtain ⟨u, hu⟩ := Option.isSome_iff_exists.mp hrecv
    simp [send_message, hu, hr, hc, hiv, store_message]

/-- C8 witness at concrete inputs. -/
theorem store_failure_witness :
    search_users_route "bob" "alice" [] true = (200, []) ∧
    send_message "alice" "bob" "ct" "iv1" none [⟨"bob", "h", "k"⟩] [] 5 true
      = (500, []) := by
  refine ⟨store_failure_spec.1 "bob" "alice" [] (by decide), ?_⟩
  exact store_failure_spec.2.2 "alice" "bob" "ct" "iv1" none [⟨"bob", "h", "k"⟩] [] 5
    (by decide) (by decide) (by decide) (by decide)

/-- C2: under the schema's token uniqueness, the guard resolves a token to
the owning username iff a session row with that token exists and the
current time is strictly before its expiry; when no such live row exists
— whether the token is expired or never existed — the verify handler
answers the identical 401 response; and every session created by login
expires exactly 24 hours after its creation time. -/
theorem session_validation_spec (token : String) (sessions : List Session) (now : Nat)
    (hnodup : (sessions.map Session.session_token).Nodup) :
    (∀ uname, require_auth token sessions now = some uname ↔
      ∃ s ∈ sessions, s.session_token = token ∧ now < s.expires_at ∧ s.username = uname) ∧
    ((¬ ∃ s ∈ sessions, s.session_token = token ∧ now < s.expires_at) →
      verify_session token sessions now = (401, none)) ∧
    (∀ username password users tok sessions',
      login username password users sessions tok now = (200, sessions') →
      ∀ s ∈ sessions', s ∈ sessions ∨ s.expires_at = now + 24 * 60 * 60) := by
  refine ⟨fun uname => ⟨fun h => ?_, fun h => ?_⟩, fun h => ?_, ?_⟩
  · rw [require_auth, Option.map_eq_some'] at h
    obtain ⟨s, hfind, huname⟩ := h
    have hmem := List.mem_of_find?_eq_some hfind
    have hpred := List.find?_some hfind
    simp only [Bool.and_eq_true, beq_iff_eq, decide_eq_true_eq] at hpred
    exact ⟨s, hmem, hpred.1, hpred.2, huname⟩
  · obtain ⟨s, hmem, htok, hexp, huname⟩ := h
    have hsome : (sessions.find? (fun s =>
        s.session_token == token && decide (now < s.expires_at))).isSome := by
      rw [List.find?_isSome]
      exact ⟨s, hmem, by simp [htok, hexp]⟩
    obtain ⟨s', hfind⟩ := Option.isSome_iff_exists.mp hsome
    have hmem' := List.mem_of_find?_eq_some hfind
    have hpred' := List.find?_some hfind
    simp only [Bool.and_eq_true, beq_iff_eq, decide_eq_true_eq] at hpred'
    have : s = s' :=
      List.inj_on_of_nodup_map hnodup hmem hmem' (htok.trans hpred'.1.symm)
    rw [require_auth, get_session, hfind, Option.map_some', ← this, huname]
  · have hnone : get_session token sessions now = none := by
      rw [get_session, List.find?_eq_none]
      intro s hs hpred
      simp only [Bool.and_eq_true, beq_iff_eq, decide_eq_true_eq] at hpred
      exact h ⟨s, hs, hpred.1, hpred.2⟩
    simp [verify_session, hnone]
  · intro username password users tok sessions' hlogin s hs
    rw [login] at hlogin
    cases hu : get_user (pyStrip username) users with
    | none => rw [hu] at hlogin; simp at hlogin
    | some user =>
        rw [hu] at hlogin
        dsimp only at hlogin
        by_cases hck : checkPasswordHash user.password_hash password = true
        · rw [if_pos hck] at hlogin
          injection hlogin with h1 h2
          subst h2
          rw [create_session] at hs
          rcases List.mem_append.mp hs with hl | hr
          · exact Or.inl hl
          · right
            rw [List.mem_singleton.mp hr]
            rfl
        · rw [if_neg hck] at hlogin; simp at hlogin

/-- C2 witness: a live session resolves to its owner. -/
theorem session_validation_witness :
    require_auth "tok1" [⟨"alice", "tok1", 100⟩] 50 = some "alice" := by
  have h := session_validation_spec "tok1" [⟨"alice", "tok1", 100⟩] 50 (by decide)
  exact (h.1 "alice").mpr ⟨⟨"alice", "tok1", 100⟩, by simp, rfl, by decide, rfl⟩

/-- Helper: a string of length at least 1 is not the empty string. -/
theorem length_pos_ne_empty {s : String} (h : 0 < s.length) : s ≠ "" := by
  intro he
  rw [he] at h
  simp [String.length] at h

/-- Helper: a valid username passes every guard of `register` up to the
`create_user` call, whose answer then decides 201 versus 409. -/
theorem register_valid_eq (username password public_key : String)
    (users : List User)
    (hstrip : pyStrip username = username)
    (hvalid : username_valid username = true)
    (hpw : 6 ≤ password.length) (hpk : public_key ≠ "") :
    register username password public_key users =
      match create_user username (hashPassword password) public_key users with
      | (true, users') => (201, users')
      | (false, _) => (409, users) := by
  rw [username_valid, Bool.and_eq_true, Bool.not_eq_true', Bool.or_eq_false_iff,
    decide_eq_false_iff_not, decide_eq_false_iff_not] at hvalid
  obtain ⟨⟨h3, h50⟩, hcore⟩ := hvalid
  have hne : username ≠ "" := length_pos_ne_empty (by omega)
  have hpwne : password ≠ "" := length_pos_ne_empty (by omega)
  rw [register, if_neg (by simp [hne, hpwne, hpk]), hstrip,
    if_neg (by simp; omega), if_neg (by simp [hcore]), if_neg (by omega)]

/-- C7: with a valid fresh username the first registration returns 201 and
appends exactly the new row, and a second registration of the same
(case-sensitively equal) username on the resulting table returns 409 and
changes nothing; the store's uniqueness constraint serializes the two, so
of the two registrations exactly the first succeeds. -/
theorem register_duplicate_spec (username password public_key : String)
    (users : List User)
    (hstrip : pyStrip username = username)
    (hvalid : username_valid username = true)
    (hpw : 6 ≤ password.length) (hpk : public_key ≠ "")
    (hfresh : ∀ u ∈ users, u.username ≠ username) :
    register username password public_key users
      = (201, users ++ [⟨username, hashPassword password, public_key⟩]) ∧
    (∀ password' public_key', 6 ≤ password'.length → public_key' ≠ "" →
      register username password' public_key'
          (users ++ [⟨username, hashPassword password, public_key⟩])
        = (409, users ++ [⟨username, hashPassword password, public_key⟩])) := by
  constructor
  · rw [register_valid_eq username password public_key users hstrip hvalid hpw hpk]
    have hany : users.any (fun u => u.username == username) = false := by
      rw [List.any_eq_false]
      intro u hu
      simp [hfresh u hu]
    rw [create_user, if_neg (by rw [hany]; exact Bool.false_ne_true)]
  · intro password' public_key' hpw' hpk'
    rw [register_valid_eq username password' public_key' _ hstrip hvalid hpw' hpk']
    have hany : (users ++ [(⟨username, hashPassword password, public_key⟩ : User)]).any
        (fun u => u.username == username) = true := by
      rw [List.any_eq_true]
      refine ⟨⟨username, hashPassword password, public_key⟩, ?_, ?_⟩
      · simp
      · simp
    rw [create_user, if_pos hany]

/-- C7 witness: registering "alice" twice on an empty table. -/
theorem register_duplicate_witness :
    register "alice" "secret" "pkA" [] = (201, [⟨"alice", hashPassword "secret", "pkA"⟩]) ∧
    register "alice" "secret2" "pkB" [⟨"alice", hashPassword "secret", "pkA"⟩]
      = (409, [⟨"alice", hashPassword "secret", "pkA"⟩]) := by
  have h := register_duplicate_spec "alice" "secret" "pkA" []
    (by decide) (by decide) (by decide) (by decide) (by intro u hu; cases hu)
  exact ⟨h.1, h.2 "secret2" "pkB" (by decide) (by decide)⟩

/-- C9 counterexample: "___" is 3 characters long, every character is in
the allowed set, and the password has 6 characters, yet registration on an
empty table answers 400 — Python's `isalnum` is False on the empty string
left after removing the hyphens/underscores, so the code also demands at
least one alphanumeric character. -/
theorem register_validation_counterexample :
    (3 ≤ "___".length ∧ "___".length ≤ 50 ∧
      (∀ c ∈ "___".data, c.isAlphanum ∨ c = '-' ∨ c = '_') ∧
      6 ≤ "secret".length) ∧
    (register "___" "secret" "pk" []).1 = 400 := by
  exact ⟨by decide, rfl⟩

/-- C9 (amended): registration answers 400 whenever the stripped username
is shorter than 3 or longer than 50 characters, whenever it contains an
ASCII character outside letters/digits/hyphen/underscore, whenever — in
addition to the claim's checks — an ASCII username contains no
alphanumeric character at all (e.g. only hyphens/underscores), and
whenever the password is shorter than 6 characters; a request passing all
of these with a present public key and a fresh username is accepted with
201.  The charset rules are stated for ASCII characters because Python's
Unicode `isalnum` also counts non-ASCII letters such as 'é' as letters,
so a non-ASCII username like "café" is accepted by the source, consistent
with the claim's letter/digit reading. -/
theorem register_validation_spec :
    (∀ u p pk st, ((pyStrip u).length < 3 ∨ 50 < (pyStrip u).length) →
      (register u p pk (st : List User)).1 = 400) ∧
    (∀ u p pk st,
      (∃ c ∈ (pyStrip u).data, c.toNat < 128 ∧ ¬(c.isAlphanum ∨ c = '-' ∨ c = '_')) →
      (register u p pk (st : List User)).1 = 400) ∧
    (∀ u p pk st, (∀ c ∈ (pyStrip u).data, c.toNat < 128) →
      (∀ c ∈ (pyStrip u).data, ¬c.isAlphanum) →
      (register u p pk (st : List User)).1 = 400) ∧
    (∀ u p pk st, p.length < 6 → (register u p pk (st : List User)).1 = 400) ∧
    (∀ u p pk st,
      pyStrip u = u → 3 ≤ u.length → u.length ≤ 50 →
      (∀ c ∈ u.data, c.isAlphanum ∨ c = '-' ∨ c = '_') →
      (∃ c ∈ u.data, c.isAlphanum) →
      6 ≤ p.length → pk ≠ "" → (∀ x ∈ st, x.username ≠ u) →
      register u p pk st = (201, st ++ [⟨u, hashPassword p, pk⟩])) := by
  have hstep : ∀ u p pk (st : List User), (u == "" || p == "" || pk == "") = false →
      register u p pk st =
        (if (pyStrip u).length < 3 || 50 < (pyStrip u).length then (400, st)
         else if !usernameCoreAlnum (pyStrip u) then (400, st)
         else if p.length < 6 then (400, st)
         else match create_user (pyStrip u) (hashPassword p) pk st with
           | (true, users') => (201, users')
           | (false, _) => (409, st)) := by
    intro u p pk st hempty
    rw [register, if_neg (by rw [hempty]; exact Bool.false_ne_true)]
  refine ⟨fun u p pk st h => ?_, fun u p pk st h => ?_, fun u p pk st hascii h => ?_,
    fun u p pk st h => ?_, fun u p pk st hstrip h3 h50 hchars halnum hpw hpk hfresh => ?_⟩
  · by_cases hempty : (u == "" || p == "" || pk == "") = true
    · simp [register, hempty]
    · rw [hstep u p pk st (Bool.not_eq_true _ ▸ hempty),
        if_pos (by rcases h with h | h <;> simp [h])]
  · by_cases hempty : (u == "" || p == "" || pk == "") = true
    · simp [register, hempty]
    · rw [hstep u p pk st (Bool.not_eq_true _ ▸ hempty)]
      obtain ⟨c, hc, hascii, hbad⟩ := h
      push_neg at hbad
      obtain ⟨hb1, hb2, hb3⟩ := hbad
      have hcoreF : usernameCoreAlnum (pyStrip u) = false := by
        rw [usernameCoreAlnum]
        have : ((pyStrip u).data.filter
            (fun c => !(c == '_') && !(c == '-'))).all Char.isAlphanum = false := by
          rw [List.all_eq_false]
          exact ⟨c, List.mem_filter.mpr ⟨hc, by simp [hb2, hb3]⟩, by simp [hb1]⟩
        simp [this]
      split
      · rfl
      · rw [if_pos (by simp [hcoreF])]
  · by_cases hempty : (u == "" || p == "" || pk == "") = true
    · simp [register, hempty]
    · rw [hstep u p pk st (Bool.not_eq_true _ ▸ hempty)]
      have hcoreF : usernameCoreAlnum (pyStrip u) = false := by
        rw [usernameCoreAlnum]
        rcases hcore : (pyStrip u).data.filter (fun c => !(c == '_') && !(c == '-')) with _ | ⟨c, rest⟩
        · simp [hcore]
        · have hcmem : c ∈ (pyStrip u).data.filter (fun c => !(c == '_') && !(c == '-')) := by
            rw [hcore]; exact List.mem_cons_self c rest
          have hcdata : c ∈ (pyStrip u).data := (List.mem_filter.mp hcmem).1
          simp [h c hcdata]
      rw [hcoreF]
      simp
  · by_cases hempty : (u == "" || p == "" || pk == "") = true
    · simp [register, hempty]
    · rw [hstep u p pk st (Bool.not_eq_true _ ▸ hempty), if_pos h]
      simp
  · have hvalid : username_valid u = true := by
      rw [username_valid, Bool.and_eq_true]
      refine ⟨by simp; omega, ?_⟩
      rw [usernameCoreAlnum, Bool.and_eq_true]
      constructor
      · obtain ⟨c, hc, hcal⟩ := halnum
        have hne1 : c ≠ '_' := by intro hh; rw [hh] at hcal; exact absurd hcal (by decide)
        have hne2 : c ≠ '-' := by intro hh; rw [hh] at hcal; exact absurd hcal (by decide)
        have : c ∈ u.data.filter (fun c => !(c == '_') && !(c == '-')) :=
          List.mem_filter.mpr ⟨hc, by simp [hne1, hne2]⟩
        simp only [Bool.not_eq_true']
        rw [List.isEmpty_eq_false_iff_exists_mem]
        exact ⟨c, this⟩
      · rw [List.all_eq_true]
        intro c hc
        have hcd : c ∈ u.data := (List.mem_filter.mp hc).1
        have hcn := (List.mem_filter.mp hc).2
        simp only [Bool.and_eq_true, Bool.not_eq_true', beq_eq_false_iff_ne] at hcn
        rcases hchars c hcd with hh | hh | hh
        · exact hh
        · exact absurd hh hcn.2
        · exact absurd hh hcn.1
    rw [register_valid_eq u p pk st hstrip hvalid hpw hpk]
    have hany : st.any (fun x => x.username == u) = false := by
      rw [List.any_eq_false]
      intro x hx
      simp [hfresh x hx]
    rw [create_user, if_neg (by rw [hany]; exact Bool.false_ne_true)]

/-- C9 witness: one concrete input per rejection rule and one accepted
registration. -/
theorem register_validation_witness :
    (register "ab" "secret" "pk" []).1 = 400 ∧
    (register "a!cd" "secret" "pk" []).1 = 400 ∧
    (register "---" "secret" "pk" []).1 = 400 ∧
    (register "alice" "abc" "pk" []).1 = 400 ∧
    register "alice" "secret" "pk" [] = (201, [⟨"alice", hashPassword "secret", "pk"⟩]) := by
  refine ⟨register_validation_spec.1 "ab" "secret" "pk" [] (by decide),
    register_validation_spec.2.1 "a!cd" "secret" "pk" []
      ⟨'!', by decide, by decide, by decide⟩,
    register_validation_spec.2.2.1 "---" "secret" "pk" [] (by decide) (by decide),
    register_validation_spec.2.2.2.1 "alice" "abc" "pk" [] (by decide), ?_⟩
  have h := register_validation_spec.2.2.2.2 "alice" "secret" "pk" []
    (by decide) (by decide) (by decide) (by decide) ⟨'a', by decide, by decide⟩
    (by decide) (by decide) (by intro x hx; cases hx)
  simpa using h

/-- Helper: unfolding `maxTimestamp` on a cons cell. -/
theorem maxTimestamp_cons (m : Message) (l : List Message) :
    maxTimestamp (m :: l) = max m.timestamp (maxTimestamp l) := rfl

/-- Helper: the maximum of a nonempty group is one of its timestamps. -/
theorem maxTimestamp_mem {l : List Message} (h : l ≠ []) :
    maxTimestamp l ∈ l.map Message.timestamp := by
  induction l with
  | nil => exact absurd rfl h
  | cons m rest ih =>
      rw [maxTimestamp_cons]
      rcases rest with _ | ⟨m', rest'⟩
      · simp [maxTimestamp]
      · rcases Nat.le_total m.timestamp (maxTimestamp (m' :: rest')) with hle | hle
        · rw [Nat.max_eq_right hle]
          exact List.mem_cons_of_mem _ (ih (by simp))
        · rw [Nat.max_eq_left hle]
          exact List.mem_cons_self _ _

/-- Helper: the maximum of a group bounds every timestamp in it. -/
theorem le_maxTimestamp {l : List Message} {m : Message} (h : m ∈ l) :
    m.timestamp ≤ maxTimestamp l := by
  induction l with
  | nil => cases h
  | cons m' rest ih =>
      rw [maxTimestamp_cons]
      rcases List.mem_cons.mp h with rfl | hmem
      · exact Nat.le_max_left _ _
      · exact Nat.le_trans (ih hmem) (Nat.le_max_right _ _)

/-- Helper: a message row contributes to the group of contact `c` exactly
when it belongs to the bidirectional exchange between `u` and `c`. -/
theorem contact_group_eq (u c : String) (m : Message) :
    ((contactOf u m == c) && involvesUser u m) = betweenUsers u c m := by
  rw [Bool.eq_iff_iff]
  simp only [contactOf, involvesUser, betweenUsers, Bool.and_eq_true, Bool.or_eq_true,
    beq_iff_eq]
  by_cases hs : m.sender_username = u <;>
    by_cases hr : m.receiver_username = u <;>
      by_cases hsc : m.sender_username = c <;>
        by_cases hrc : m.receiver_username = c <;>
          simp_all

/-- Helper: the rows of a contact's group are exactly the rows of the
bidirectional exchange with that contact. -/
theorem conversations_group (u c : String) (msgs : List Message) :
    (msgs.filter (involvesUser u)).filter (fun m => contactOf u m == c)
      = msgs.filter (betweenUsers u c) := by
  rw [List.filter_filter]
  exact List.filter_congr (fun m _ => contact_group_eq u c m)

/-- C1: `get_conversations` lists each counterpart at most once, a contact
appears exactly when some message was exchanged with it in either
direction, each contact is paired with the maximum timestamp over both
directions of exchange with it, and the list is ordered by that timestamp
descending. -/
theorem conversations_spec (u : String) (msgs : List Message) :
    ((get_conversations u msgs).map Prod.fst).Nodup ∧
    (∀ c, c ∈ (get_conversations u msgs).map Prod.fst ↔
      ∃ m ∈ msgs, betweenUsers u c m = true) ∧
    (∀ p ∈ get_conversations u msgs,
      p.2 ∈ (msgs.filter (betweenUsers u p.1)).map Message.timestamp ∧
      ∀ t ∈ (msgs.filter (betweenUsers u p.1)).map Message.timestamp, t ≤ p.2) ∧
    List.Sorted pairGe (get_conversations u msgs) := by
  have hperm : List.Perm (get_conversations u msgs)
      (((msgs.filter (involvesUser u)).map (contactOf u)).dedup.map
        (fun c => (c, maxTimestamp
          ((msgs.filter (involvesUser u)).filter (fun m => contactOf u m == c))))) :=
    List.perm_insertionSort pairGe _
  have hfst : ∀ (l : List String) (f : String → Nat),
      (l.map (fun c => (c, f c))).map Prod.fst = l := by
    intro l f
    induction l with
    | nil => rfl
    | cons x xs ih => simp only [List.map_cons, ih]
  have hmemc : ∀ c, c ∈ ((msgs.filter (involvesUser u)).map (contactOf u)).dedup ↔
      ∃ m ∈ msgs, betweenUsers u c m = true := by
    intro c
    rw [List.mem_dedup, List.mem_map]
    constructor
    · rintro ⟨m, hm, rfl⟩
      obtain ⟨hmm, hinv⟩ := List.mem_filter.mp hm
      refine ⟨m, hmm, ?_⟩
      rw [← contact_group_eq u (contactOf u m) m, hinv]
      simp
    · rintro ⟨m, hm, hbet⟩
      rw [← contact_group_eq u c m, Bool.and_eq_true, beq_iff_eq] at hbet
      exact ⟨m, List.mem_filter.mpr ⟨hm, hbet.2⟩, hbet.1⟩
  refine ⟨?_, ?_, ?_, ?_⟩
  · rw [(hperm.map Prod.fst).nodup_iff, hfst]
    exact List.nodup_dedup _
  · intro c
    rw [(hperm.map Prod.fst).mem_iff, hfst]
    exact hmemc c
  · intro p hp
    rw [hperm.mem_iff, List.mem_map] at hp
    obtain ⟨c, hc, rfl⟩ := hp
    rw [conversations_group]
    have hne : msgs.filter (betweenUsers u c) ≠ [] := by
      obtain ⟨m, hm, hbet⟩ := (hmemc c).mp hc
      intro hnil
      exact absurd (List.mem_filter.mpr ⟨hm, hbet⟩) (hnil ▸ List.not_mem_nil m)
    refine ⟨maxTimestamp_mem hne, ?_⟩
    intro t ht
    obtain ⟨m, hm, rfl⟩ := List.mem_map.mp ht
    exact le_maxTimestamp hm
  · exact List.sorted_insertionSort pairGe _

/-- C5 counterexample: with u = v = "alice" and one message from alice to
bob, `get_messages alice alice` is empty (only self-messages fit the
bidirectional pattern), while filtering alice's full history to the rows
involving alice keeps the message — so the claim fails for the
non-distinct pair. -/
theorem history_filter_counterexample :
    get_messages "alice" (some "alice") [⟨"alice", "bob", "ct", "iv1", none, 1⟩] = [] ∧
    (get_messages "alice" none [⟨"alice", "bob", "ct", "iv1", none, 1⟩]).filter
        (involvesUser "alice") = [⟨"alice", "bob", "ct", "iv1", none, 1⟩] ∧
    get_messages "alice" (some "alice") [⟨"alice", "bob", "ct", "iv1", none, 1⟩]
      ≠ (get_messages "alice" none [⟨"alice", "bob", "ct", "iv1", none, 1⟩]).filter
          (involvesUser "alice") := by
  refine ⟨by decide, by decide, by decide⟩

/-- Helper: for distinct users, a row involving both is exactly a row of
their bidirectional exchange. -/
theorem involves_and_eq (u v : String) (m : Message) (huv : u ≠ v) :
    (involvesUser v m && involvesUser u m) = betweenUsers u v m := by
  rw [Bool.eq_iff_iff]
  simp only [involvesUser, betweenUsers, Bool.and_eq_true, Bool.or_eq_true, beq_iff_eq]
  by_cases hs : m.sender_username = u <;>
    by_cases hr : m.receiver_username = u <;>
      by_cases hsv : m.sender_username = v <;>
        by_cases hrv : m.receiver_username = v <;>
          simp_all

/-- C5 (amended): for every pair of distinct users u ≠ v (with v an actual,
hence nonempty, username), history(u, v) consists exactly of the messages
of the bidirectional exchange in ascending timestamp order, and is the
same set of rows as filtering history(u) to the rows involving v, which is
likewise in ascending timestamp order. -/
theorem history_filter_spec (u v : String) (msgs : List Message)
    (huv : u ≠ v) (hv : v ≠ "") :
    List.Perm (get_messages u (some v) msgs) (msgs.filter (betweenUsers u v)) ∧
    List.Sorted msgLe (get_messages u (some v) msgs) ∧
    List.Perm (get_messages u (some v) msgs)
      ((get_messages u none msgs).filter (involvesUser v)) ∧
    List.Sorted msgLe ((get_messages u none msgs).filter (involvesUser v)) := by
  have h1 : List.Perm (get_messages u (some v) msgs) (msgs.filter (betweenUsers u v)) := by
    simp only [get_messages, if_neg hv]
    exact List.perm_insertionSort msgLe _
  have h2 : List.Perm ((get_messages u none msgs).filter (involvesUser v))
      ((msgs.filter (involvesUser u)).filter (involvesUser v)) :=
    (List.perm_insertionSort msgLe (msgs.filter (involvesUser u))).filter (involvesUser v)
  have h3 : (msgs.filter (involvesUser u)).filter (involvesUser v)
      = msgs.filter (betweenUsers u v) := by
    rw [List.filter_filter]
    exact List.filter_congr (fun m _ => involves_and_eq u v m huv)
  rw [h3] at h2
  refine ⟨h1, ?_, h1.trans h2.symm, ?_⟩
  · simp only [get_messages, if_neg hv]
    exact List.sorted_insertionSort msgLe _
  · exact List.Sorted.filter (involvesUser v) (List.sorted_insertionSort msgLe _)

/-- C5 witness: the distinct pair alice/bob with a single exchanged
message. -/
theorem history_filter_witness :
    List.Perm (get_messages "alice" (some "bob") [⟨"alice", "bob", "ct", "iv1", none, 1⟩])
      ([⟨"alice", "bob", "ct", "iv1", none, 1⟩].filter (betweenUsers "alice" "bob")) ∧
    List.Perm (get_messages "alice" (some "bob") [⟨"alice", "bob", "ct", "iv1", none, 1⟩])
      ((get_messages "alice" none [⟨"alice", "bob", "ct", "iv1", none, 1⟩]).filter
        (involvesUser "bob")) :=
  ⟨(history_filter_spec "alice" "bob" [⟨"alice", "bob", "ct", "iv1", none, 1⟩]
      (by decide) (by decide)).1,
   (history_filter_spec "alice" "bob" [⟨"alice", "bob", "ct", "iv1", none, 1⟩]
      (by decide) (by decide)).2.2.1⟩

/-- Helper: `LIKE` equation on a cons pattern. -/
theorem like_cons_eq (c : Char) (p s : List Char) :
    like (c :: p) s =
      if c = '%' then s.tails.any (fun t => like p t)
      else match s with
        | [] => false
        | d :: s' => (if c = '_' then true else lowerAscii c == lowerAscii d) && like p s' := by
  simp only [like]

/-- Helper: a leading `%` matches any split of the subject. -/
theorem like_percent (p s : List Char) :
    like ('%' :: p) s = true ↔ ∃ a b, a ++ b = s ∧ like p b = true := by
  rw [like_cons_eq, if_pos rfl, List.any_eq_true]
  constructor
  · rintro ⟨t, ht, hlike⟩
    obtain ⟨a, ha⟩ := (List.mem_tails _ _).mp ht
    exact ⟨a, t, ha, hlike⟩
  · rintro ⟨a, b, hab, hlike⟩
    exact ⟨b, (List.mem_tails _ _).mpr ⟨a, hab⟩, hlike⟩

/-- Helper: a literal (wildcard-free) pattern character fails on an empty
subject. -/
theorem like_lit_nil (c : Char) (p : List Char) (h : c ≠ '%') :
    like (c :: p) [] = false := by
  rw [like_cons_eq, if_neg h]

/-- Helper: a literal pattern character consumes one subject character up
to ASCII case. -/
theorem like_lit_cons (c : Char) (p : List Char) (d : Char) (s : List Char)
    (h : c ≠ '%') (h' : c ≠ '_') :
    like (c :: p) (d :: s) = ((lowerAscii c == lowerAscii d) && like p s) := by
  rw [like_cons_eq, if_neg h]
  simp only [if_neg h']

/-- Helper: a wildcard-free pattern followed by `%` matches the subjects
whose prefix case-folds to the pattern. -/
theorem like_literal (q : List Char) (hq : ∀ c ∈ q, c ≠ '%' ∧ c ≠ '_') (s : List Char) :
    like (q ++ ['%']) s = true ↔
      ∃ a b, a ++ b = s ∧ a.map lowerAscii = q.map lowerAscii := by
  induction q generalizing s with
  | nil =>
      rw [List.nil_append, like_percent]
      constructor
      · intro _
        exact ⟨[], s, by simp, by simp⟩
      · intro _
        exact ⟨s, [], by simp, rfl⟩
  | cons c q' ih =>
      obtain ⟨hcp, hcu⟩ := hq c (List.mem_cons_self c q')
      have hq' : ∀ x ∈ q', x ≠ '%' ∧ x ≠ '_' := fun x hx => hq x (List.mem_cons_of_mem c hx)
      cases s with
      | nil =>
          rw [List.cons_append, like_lit_nil c (q' ++ ['%']) hcp]
          constructor
          · intro h
            exact absurd h Bool.false_ne_true
          · rintro ⟨a, b, hab, hmap⟩
            obtain ⟨rfl, -⟩ := List.append_eq_nil.mp hab
            simp at hmap
      | cons d s' =>
          rw [List.cons_append, like_lit_cons c (q' ++ ['%']) d s' hcp hcu,
            Bool.and_eq_true, beq_iff_eq, ih hq']
          constructor
          · rintro ⟨hcd, a, b, hab, hmap⟩
            refine ⟨d :: a, b, by rw [List.cons_append, hab], ?_⟩
            rw [List.map_cons, List.map_cons, hmap, hcd]
          · rintro ⟨a, b, hab, hmap⟩
            cases a with
            | nil => simp at hmap
            | cons e a' =>
                rw [List.cons_append, List.cons.injEq] at hab
                obtain ⟨rfl, hab'⟩ := hab
                rw [List.map_cons, List.map_cons, List.cons.injEq] at hmap
                exact ⟨hmap.1.symm, a', b, hab', hmap.2⟩

/-- Helper: for a wildcard-free query, the `'%' + query + '%'` pattern
matches a subject exactly when the case-folded query is an infix of the
case-folded subject. -/
theorem like_pattern_iff (query s : String)
    (hq : ∀ c ∈ query.data, c ≠ '%' ∧ c ≠ '_') :
    like (likePattern query) s.data = containsCI query s := by
  rw [Bool.eq_iff_iff, likePattern, containsCI, decide_eq_true_eq]
  rw [like_percent]
  constructor
  · rintro ⟨a, b, hab, hlit⟩
    obtain ⟨m, b2, hmb, hmap⟩ := (like_literal query.data hq b).mp hlit
    refine ⟨a.map lowerAscii, b2.map lowerAscii, ?_⟩
    rw [← hab, ← hmb, List.map_append, List.map_append, hmap, List.append_assoc]
  · rintro ⟨pre, post, hinf⟩
    have hsplit : s.data.map lowerAscii = (pre ++ query.data.map lowerAscii) ++ post := by
      rw [← hinf, List.append_assoc]
    obtain ⟨l1, l2, hl, hm1, hm2⟩ := List.map_eq_append_iff.mp hsplit
    obtain ⟨l11, l12, hl1, hm11, hm12⟩ := List.map_eq_append_iff.mp hm1
    refine ⟨l11, l12 ++ l2, ?_, ?_⟩
    · rw [← List.append_assoc, ← hl1, ← hl]
    · exact (like_literal query.data hq _).mpr ⟨l12, l2, rfl, hm12⟩

/-- C6 counterexample: the query "__" (two underscores, length 2) makes
the source's search return "bob", a username that does not contain "__"
as a (case-insensitive) substring — the unescaped LIKE underscores match
the letters of "bob". -/
theorem search_substring_counterexample :
    search_users "__" "alice" [⟨"bob", "h", "k"⟩] false = ["bob"] ∧
    containsCI "__" "bob" = false := by
  exact ⟨by decide, by decide⟩

/-- C6 (amended): for queries free of the SQL LIKE wildcards `%` and `_`,
the source's search coincides with the spec's description — the
alphabetically first at most 10 registered usernames containing the query
as a case-insensitive substring, excluding the requesting user — and a
(stripped) query shorter than 2 characters is rejected with 400 before
reaching the store. -/
theorem search_users_like_spec (query current_user : String) (users : List User)
    (hq : ∀ c ∈ query.data, c ≠ '%' ∧ c ≠ '_') :
    search_users query current_user users false
      = search_users_spec query current_user users ∧
    List.Sorted (· ≤ ·) (search_users query current_user users false) ∧
    (search_users query current_user users false).length ≤ 10 ∧
    (∀ s ∈ search_users query current_user users false,
      s ∈ users.map User.username ∧ s ≠ current_user) ∧
    (∀ q', (pyStrip q').length < 2 →
      search_users_route q' current_user users false = (400, [])) := by
  have hfeq : ((users.map User.username).filter
        (fun s => like (likePattern query) s.data && !(s == current_user)))
      = ((users.map User.username).filter
        (fun s => containsCI query s && !(s == current_user))) :=
    List.filter_congr (fun s _ => by rw [like_pattern_iff query s hq])
  refine ⟨?_, ?_, ?_, ?_, ?_⟩
  · show (List.insertionSort (· ≤ ·) _).take 10 = _
    rw [hfeq]
    rfl
  · show List.Sorted (· ≤ ·) ((List.insertionSort (· ≤ ·) _).take 10)
    exact List.Pairwise.sublist (List.take_sublist 10 _) (List.sorted_insertionSort _ _)
  · exact List.length_take_le 10 _
  · intro s hs
    have hs' : s ∈ List.insertionSort (· ≤ ·)
        ((users.map User.username).filter
          (fun s => like (likePattern query) s.data && !(s == current_user))) :=
      List.take_subset 10 _ hs
    rw [(List.perm_insertionSort _ _).mem_iff, List.mem_filter] at hs'
    refine ⟨hs'.1, ?_⟩
    have := hs'.2
    rw [Bool.and_eq_true, Bool.not_eq_true', beq_eq_false_iff_ne] at this
    exact this.2
  · intro q' hq'
    simp [search_users_route, hq']

/-- C6 witness: the wildcard-free query "bo" against a one-user table. -/
theorem search_users_like_witness :
    search_users "bo" "alice" [⟨"bob", "h", "k"⟩] false
      = search_users_spec "bo" "alice" [⟨"bob", "h", "k"⟩] ∧
    search_users_route "b" "alice" [⟨"bob", "h", "k"⟩] false = (400, []) := by
  have h := search_users_like_spec "bo" "alice" [⟨"bob", "h", "k"⟩] (by decide)
  exact ⟨h.1, h.2.2.2.2 "b" (by decide)⟩

/-- C10: the search pattern is `'%' + query + '%'` with the query
interpolated unescaped, so its `_` characters act as single-character
wildcards: the length-2 query "__" passes the route's length check and
returns the username "bob", which does not contain "__" as a literal
substring. -/
theorem like_wildcard_spec :
    likePattern "__" = ['%', '_', '_', '%'] ∧
    search_users_route "__" "alice" [⟨"bob", "h", "k"⟩] false = (200, ["bob"]) ∧
    ¬ ("__".data <:+: "bob".data) := by
  exact ⟨by decide, by decide, by decide⟩
